import Mathlib

/-!
Verification of the dashit news-ingestion / Reddit-publishing core.

The definitions below are a shallow embedding of the Python sources:
`src/scraper/manager.py` (the refactored core) and, where a claim refers
to it, the legacy monolith `src/feed_scraper.py`.  External collaborators
(the network, feedparser, praw) are represented at their interface
boundary: an adapter fetch is an `Except` value (the body of each
`scrape_*` method is wrapped in `try/except`), and the external Reddit
submission is an oracle `String → String → Bool` taking the submitted
title and url.  SQLite is modelled as an explicit `Store` value; the
single `rss_data` table is a list of rows plus the AUTOINCREMENT counter.
-/

namespace Dashit

/-! ### SHA-256 (`hashlib.sha256(...).hexdigest()`), FIPS 180-4 -/

/-- 2^32, the modulus of all SHA-256 word arithmetic. -/
def M32 : Nat := 4294967296

def add32 (a b : Nat) : Nat := (a + b) % M32

def rotr (n w : Nat) : Nat := ((w >>> n) ||| (w <<< (32 - n))) % M32

def shr (n w : Nat) : Nat := w >>> n

def ch32 (x y z : Nat) : Nat := (x &&& y) ^^^ ((x ^^^ 4294967295) &&& z)

def maj32 (x y z : Nat) : Nat := ((x &&& y) ^^^ (x &&& z)) ^^^ (y &&& z)

def bigSigma0 (w : Nat) : Nat := (rotr 2 w ^^^ rotr 13 w) ^^^ rotr 22 w

def bigSigma1 (w : Nat) : Nat := (rotr 6 w ^^^ rotr 11 w) ^^^ rotr 25 w

def smallSigma0 (w : Nat) : Nat := (rotr 7 w ^^^ rotr 18 w) ^^^ shr 3 w

def smallSigma1 (w : Nat) : Nat := (rotr 17 w ^^^ rotr 19 w) ^^^ shr 10 w

/-- Value of one lowercase hex digit. -/
def hexDigitVal (c : Char) : Nat := "0123456789abcdef".data.findIdx (fun x => x == c)

/-- Decode a string of hex digits into big-endian 32-bit words, 8 digits
per word. -/
def wordsOfHex : List Char → List Nat
  | c0 :: c1 :: c2 :: c3 :: c4 :: c5 :: c6 :: c7 :: rest =>
    ((((((((hexDigitVal c0) * 16 + hexDigitVal c1) * 16 + hexDigitVal c2) * 16 +
      hexDigitVal c3) * 16 + hexDigitVal c4) * 16 + hexDigitVal c5) * 16 +
      hexDigitVal c6) * 16 + hexDigitVal c7) :: wordsOfHex rest
  | _ => []

/-- The 64 SHA-256 round constants of FIPS 180-4, as hex text. -/
def K256hex : String :=
  "428a2f9871374491b5c0fbcfe9b5dba53956c25b59f111f1923f82a4ab1c5ed5" ++
  "d807aa9812835b01243185be550c7dc372be5d7480deb1fe9bdc06a7c19bf174" ++
  "e49b69c1efbe47860fc19dc6240ca1cc2de92c6f4a7484aa5cb0a9dc76f988da" ++
  "983e5152a831c66db00327c8bf597fc7c6e00bf3d5a7914706ca635114292967" ++
  "27b70a852e1b21384d2c6dfc53380d13650a7354766a0abb81c2c92e92722c85" ++
  "a2bfe8a1a81a664bc24b8b70c76c51a3d192e819d6990624f40e3585106aa070" ++
  "19a4c1161e376c082748774c34b0bcb5391c0cb34ed8aa4a5b9cca4f682e6ff3" ++
  "748f82ee78a5636f84c878148cc7020890befffaa4506cebbef9a3f7c67178f2"

def K256 : List Nat := wordsOfHex K256hex.data

/-- The eight working variables of the SHA-256 compression function. -/
@[ext] structure Hash8 where
  a : Nat
  b : Nat
  c : Nat
  d : Nat
  e : Nat
  f : Nat
  g : Nat
  h : Nat
deriving DecidableEq

/-- The eight SHA-256 initial hash values of FIPS 180-4, as hex text. -/
def IVwords : List Nat :=
  wordsOfHex ("6a09e667bb67ae853c6ef372a54ff53a510e527f9b05688c1f83d9ab5be0cd19").data

def IV256 : Hash8 :=
  ⟨IVwords.getD 0 0, IVwords.getD 1 0, IVwords.getD 2 0, IVwords.getD 3 0,
   IVwords.getD 4 0, IVwords.getD 5 0, IVwords.getD 6 0, IVwords.getD 7 0⟩

def roundStep (s : Hash8) (kw : Nat × Nat) : Hash8 :=
  let t1 := add32 s.h (add32 (bigSigma1 s.e) (add32 (ch32 s.e s.f s.g) (add32 kw.1 kw.2)))
  let t2 := add32 (bigSigma0 s.a) (maj32 s.a s.b s.c)
  ⟨add32 t1 t2, s.a, s.b, s.c, add32 s.d t1, s.e, s.f, s.g⟩

/-- Big-endian 32-bit words from a byte list. -/
def toWords : List Nat → List Nat
  | b0 :: b1 :: b2 :: b3 :: rest => (((b0 * 256 + b1) * 256 + b2) * 256 + b3) :: toWords rest
  | _ => []

def scheduleStep (w : List Nat) : List Nat :=
  let n := w.length
  w ++ [add32 (add32 (smallSigma1 (w.getD (n - 2) 0)) (w.getD (n - 7) 0))
              (add32 (smallSigma0 (w.getD (n - 15) 0)) (w.getD (n - 16) 0))]

/-- Message schedule: extend the 16 block words to 64. -/
def schedule (w : List Nat) : List Nat := scheduleStep^[48] w

def compress (s : Hash8) (block : List Nat) : Hash8 :=
  let w := schedule (toWords block)
  let t := (K256.zip w).foldl roundStep s
  ⟨add32 s.a t.a, add32 s.b t.b, add32 s.c t.c, add32 s.d t.d,
   add32 s.e t.e, add32 s.f t.f, add32 s.g t.g, add32 s.h t.h⟩

/-- Big-endian byte list of width `n` for value `v`. -/
def beBytes : Nat → Nat → List Nat
  | 0, _ => []
  | n + 1, v => beBytes n (v >>> 8) ++ [v % 256]

/-- SHA-256 padding: a 0x80 byte, zeros, and the 64-bit big-endian bit length. -/
def padMessage (msg : List Nat) : List Nat :=
  let l := msg.length
  let zeros := (64 - (l + 9) % 64) % 64
  msg ++ [0x80] ++ List.replicate zeros 0 ++ beBytes 8 (8 * l)

def chunksAux : Nat → List Nat → List (List Nat)
  | 0, _ => []
  | _, [] => []
  | fuel + 1, l => l.take 64 :: chunksAux fuel (l.drop 64)

/-- Split a byte list into 64-byte blocks. -/
def chunks64 (l : List Nat) : List (List Nat) := chunksAux (l.length + 1) l

def sha256 (msg : List Nat) : Hash8 := (chunks64 (padMessage msg)).foldl compress IV256

def hexChar (n : Nat) : Char := "0123456789abcdef".data.getD n '0'

def wordHex (w : Nat) : List Char :=
  [hexChar ((w >>> 28) % 16), hexChar ((w >>> 24) % 16), hexChar ((w >>> 20) % 16),
   hexChar ((w >>> 16) % 16), hexChar ((w >>> 12) % 16), hexChar ((w >>> 8) % 16),
   hexChar ((w >>> 4) % 16), hexChar (w % 16)]

def hashHex (s : Hash8) : String :=
  ⟨wordHex s.a ++ wordHex s.b ++ wordHex s.c ++ wordHex s.d ++
   wordHex s.e ++ wordHex s.f ++ wordHex s.g ++ wordHex s.h⟩

/-- UTF-8 encoding of one character (`str.encode("utf-8")`), as its byte list. -/
def utf8EncodeChar (c : Char) : List Nat :=
  let v := c.toNat
  if v < 0x80 then [v]
  else if v < 0x800 then [0xC0 ||| (v >>> 6), 0x80 ||| (v &&& 0x3F)]
  else if v < 0x10000 then
    [0xE0 ||| (v >>> 12), 0x80 ||| ((v >>> 6) &&& 0x3F), 0x80 ||| (v &&& 0x3F)]
  else
    [0xF0 ||| (v >>> 18), 0x80 ||| ((v >>> 12) &&& 0x3F),
     0x80 ||| ((v >>> 6) &&& 0x3F), 0x80 ||| (v &&& 0x3F)]

def utf8Encode (s : String) : List Nat := (s.data.map utf8EncodeChar).flatten

/-- `hashlib.sha256(s.encode("utf-8")).hexdigest()`. -/
def sha256Hex (s : String) : String := hashHex (sha256 (utf8Encode s))

/-! ### Data model: the `rss_data` table -/

/-- One row of the `rss_data` table (schema in `create_database`).  `posted`
has SQLite default 0, i.e. `false`. -/
structure Entry where
  id : Nat
  hash : String
  source : String
  url : String
  headline : String
  summary : String
  published : String
  posted : Bool
deriving DecidableEq

/-- The SQLite database: the `rss_data` rows plus the AUTOINCREMENT counter
for the next `id` (starts at 1). -/
structure Store where
  entries : List Entry
  nextId : Nat
deriving DecidableEq

def emptyStore : Store := ⟨[], 1⟩

def storeHashes (st : Store) : List String := st.entries.map (fun e => e.hash)

/-- A normalized candidate, as the `entry_data` dict plus the summary column:
url, headline and published are the fields hashed by `generate_hash`. -/
structure Candidate where
  url : String
  headline : String
  summary : String
  published : String
deriving DecidableEq

/-- The `unique_string = entry["url"] + entry["headline"] + entry["published"]`
of `NewsManager.generate_hash`. -/
def uniqueString (c : Candidate) : String := c.url ++ c.headline ++ c.published

/-- `NewsManager.generate_hash`: SHA-256 hex digest of the bare concatenation
url + headline + published, UTF-8 encoded, no separator. -/
def generate_hash (c : Candidate) : String := sha256Hex (uniqueString c)

/-- `INSERT OR IGNORE INTO rss_data (hash, source, url, headline, summary,
published) VALUES (...)` followed by the `cursor.rowcount > 0` test: a row
with a colliding `hash` (UNIQUE column) makes the insert a no-op with
rowcount 0, otherwise the row is appended with the next id and rowcount 1. -/
def insertOrIgnore (st : Store) (hash source url headline summary published : String) :
    Store × Nat :=
  if st.entries.any (fun e => e.hash == hash) then (st, 0)
  else ({ entries := st.entries ++ [⟨st.nextId, hash, source, url, headline, summary, published, false⟩],
          nextId := st.nextId + 1 }, 1)

/-- The per-candidate body of the scraping loops: a malformed candidate
(per-entry `try/except`) is logged and skipped, otherwise the entry is
hashed and inserted, and `new_articles` grows by the rowcount. -/
def processCandidate (source : String) (acc : Store × Nat) (c : Except String Candidate) :
    Store × Nat :=
  match c with
  | .error _ => acc
  | .ok cand =>
    let r := insertOrIgnore acc.1 (generate_hash cand) source cand.url cand.headline
               cand.summary cand.published
    (r.1, acc.2 + r.2)

/-- One `scrape_*` source: the whole fetch is wrapped in `try/except`, so a
failing fetch is caught, logged and contributes 0 new articles; a successful
fetch inserts each candidate in order. -/
def scrapeSource (source : String) (fetch : Except String (List (Except String Candidate)))
    (st : Store) : Store × Nat :=
  match fetch with
  | .error _ => (st, 0)
  | .ok cands => cands.foldl (processCandidate source) (st, 0)

/-- `NewsManager.scrape_all`: run every registered source in order and sum
the per-source new-article counts. -/
def scrape_all (adapters : List (String × Except String (List (Except String Candidate))))
    (st : Store) : Store × Nat :=
  adapters.foldl (fun acc a => let r := scrapeSource a.1 a.2 acc.1; (r.1, acc.2 + r.2)) (st, 0)

/-! ### `urllib.parse.urlparse(url).netloc` -/

def isSchemeChar (c : Char) : Bool := c.isAlphanum || c == '+' || c == '-' || c == '.'

def schemeSplitGo : List Char → Option (List Char)
  | [] => none
  | c :: rest => if c == ':' then some rest else if isSchemeChar c then schemeSplitGo rest else none

/-- Strip a leading `scheme:` (a nonempty run of scheme characters followed
by a colon), as `urlsplit` does before looking for `//`. -/
def dropScheme (l : List Char) : List Char :=
  match l with
  | [] => []
  | c :: rest =>
    if isSchemeChar c then
      match schemeSplitGo rest with
      | some r => r
      | none => l
    else l

/-- `urlparse(url).netloc`: after the optional scheme, if the rest starts
with `//` the netloc runs up to the next `/`, `?` or `#`; otherwise it is
empty. -/
def netloc (url : String) : String :=
  match dropScheme url.data with
  | '/' :: '/' :: r => ⟨r.takeWhile (fun c => !(c == '/' || c == '?' || c == '#'))⟩
  | _ => ""

/-- Python `str.lower()` / `str.upper()`, character by character (the data
handled here is ASCII, where this matches exactly). -/
def strLower (s : String) : String := ⟨s.data.map Char.toLower⟩

def strUpper (s : String) : String := ⟨s.data.map Char.toUpper⟩

/-- `urlparse(r_url).netloc.lower()` as computed in the block-list checks. -/
def hostOf (url : String) : String := strLower (netloc url)

/-- Python `host.endswith(d)`: plain text suffix, no label boundary. -/
def strEndsWith (s t : String) : Bool := decide (t.data <:+ s.data)

/-- The blocked-domain test of `fetch_unposted_articles` /
`post_unposted_articles`: `host and any(host.endswith(d) or host == d for d
in BLOCKED_DOMAINS)`. -/
def hostBlocked (bd : List String) (url : String) : Bool :=
  let host := hostOf url
  !host.isEmpty && bd.any (fun d => strEndsWith host d || host == d)

/-- Modelled from the spec (for comparison with `hostBlocked` only):
"match if the entry URL's host equals or is a subdomain of a blocked
domain" — equality, or a suffix with a dot-label boundary. -/
def specDomainMatch (host d : String) : Bool := host == d || strEndsWith host ("." ++ d)

/-! ### Publish selector: `NewsManager.fetch_unposted_articles` -/

/-- One row of `SELECT id, url, headline, source, published`. -/
structure Row where
  id : Nat
  url : String
  headline : String
  source : String
  published : String
deriving DecidableEq

def toRow (e : Entry) : Row := ⟨e.id, e.url, e.headline, e.source, e.published⟩

/-- Lexicographic comparison of char lists by code point.  SQLite's BINARY
collation compares TEXT values bytewise on their UTF-8 encodings; on UTF-8,
byte order and code-point order coincide, so this is the comparison the
`ORDER BY` clause uses. -/
def charListLt : List Char → List Char → Bool
  | _, [] => false
  | [], _ :: _ => true
  | a :: as, b :: bs =>
    if a.toNat < b.toNat then true
    else if b.toNat < a.toNat then false
    else charListLt as bs

def strLt (a b : String) : Bool := charListLt a.data b.data

/-- `ORDER BY published DESC, id DESC` as a boolean test: `a` may precede
`b`. -/
def entryOrdB (a b : Entry) : Bool :=
  strLt b.published a.published ||
    (b.published == a.published && decide (b.id ≤ a.id))

def entryOrd (a b : Entry) : Prop := entryOrdB a b = true

instance : DecidableRel entryOrd := fun a b => inferInstanceAs (Decidable (entryOrdB a b = true))

/-- The sort performed by `ORDER BY published DESC, id DESC`. -/
def sqlOrder (l : List Entry) : List Entry := List.insertionSort entryOrd l

/-- Python truthiness of the optional `limit` argument (`if limit:`). -/
def optTruthyNat : Option Nat → Bool
  | none => false
  | some n => n != 0

/-- Python truthiness of the optional `source` argument (`if source:`). -/
def optTruthyStr : Option String → Bool
  | none => false
  | some s => !s.isEmpty

def sourceFilterOk (source : Option String) (e : Entry) : Bool :=
  if optTruthyStr source then e.source == source.getD "" else true

/-- The row-level block test of the selector: `r_source and r_source.lower()
in BLOCKED_SOURCES`, or the blocked-domain test on the row's url. -/
def rowBlocked (bs bd : List String) (r : Row) : Bool :=
  (!r.source.isEmpty && bs.contains (strLower r.source)) || hostBlocked bd r.url

/-- `NewsManager.fetch_unposted_articles(limit, source)`: the SQL query
(`posted = 0`, optional source equality, ORDER BY published DESC, id DESC,
and — when `limit` is truthy — `LIMIT ?` at the SQL layer), then, only when
a block list is nonempty, the in-Python block-list filtering of the already
fetched rows. -/
def fetch_unposted_articles (bs bd : List String) (st : Store) (limit : Option Nat)
    (source : Option String) : List Row :=
  let rows := (sqlOrder (st.entries.filter (fun e => !e.posted && sourceFilterOk source e))).map toRow
  let rows := if optTruthyNat limit then rows.take (limit.getD 0) else rows
  if !bs.isEmpty || !bd.isEmpty then rows.filter (fun r => !rowBlocked bs bd r) else rows

/-! ### Publish driver: credentials, `post_to_reddit`, `post_unposted_articles` -/

/-- The `REDDIT_*` environment variables read by `_build_reddit_config`. -/
structure RedditEnv where
  client_id : Option String
  client_secret : Option String
  user_agent : Option String
  refresh_token : Option String
  username : Option String
  password : Option String

/-- Python falsiness of an environment value (`if not v`). -/
def optFalsy : Option String → Bool
  | none => true
  | some s => s.isEmpty

/-- `_build_reddit_config`: raises (here `Except.error`) when any of
client id / client secret / user agent is missing, or when neither a
refresh token nor a username+password pair is provided; otherwise returns
the praw config dict. -/
def _build_reddit_config (env : RedditEnv) : Except String (List (String × String)) :=
  let missing :=
    (if optFalsy env.client_id then ["REDDIT_CLIENT_ID"] else []) ++
    (if optFalsy env.client_secret then ["REDDIT_CLIENT_SECRET"] else []) ++
    (if optFalsy env.user_agent then ["REDDIT_USER_AGENT"] else [])
  if !missing.isEmpty then
    .error ("Reddit credentials missing: " ++ String.intercalate ", " missing ++
      ". Set them in your environment or .env.")
  else
    let config := [("client_id", env.client_id.getD ""),
                   ("client_secret", env.client_secret.getD ""),
                   ("user_agent", env.user_agent.getD "")]
    if !optFalsy env.refresh_token then
      .ok (config ++ [("refresh_token", env.refresh_token.getD "")])
    else if optFalsy env.username || optFalsy env.password then
      .error "Reddit credentials incomplete: provide REDDIT_REFRESH_TOKEN or both REDDIT_USERNAME and REDDIT_PASSWORD."
    else
      .ok (config ++ [("username", env.username.getD ""), ("password", env.password.getD "")])

/-- Manager state: the database plus the cached praw client
(`self.reddit`, `None` until `init_reddit` succeeds). -/
structure MState where
  store : Store
  reddit : Option (List (String × String))
deriving DecidableEq

/-- `NewsManager.init_reddit`: construct and cache the praw client on first
use; `_build_reddit_config` may raise. -/
def init_reddit (env : RedditEnv) (ms : MState) :
    Except String (MState × List (String × String)) :=
  match ms.reddit with
  | some c => .ok (ms, c)
  | none =>
    match _build_reddit_config env with
    | .error e => .error e
    | .ok c => .ok ({ ms with reddit := some c }, c)

/-- The replacement table of `NewsManager._sanitize_title`, per character:
curly quotes, dashes, ellipsis and non-breaking space to ASCII. -/
def sanitizeChar (c : Char) : List Char :=
  if c = '‘' ∨ c = '’' then [Char.ofNat 39]
  else if c = '“' ∨ c = '”' then [Char.ofNat 34]
  else if c = '–' ∨ c = '—' then ['-']
  else if c = '…' then ['.', '.', '.']
  else if c = ' ' then [' ']
  else [c]

/-- `NewsManager._sanitize_title`: the replacement table, then
`normalize("NFKD", ...).encode("ascii", "ignore")`, modelled as dropping
every remaining non-ASCII character (exact for ASCII text and for the
replaced punctuation; NFKD decompositions of other characters are not
modelled). -/
def _sanitize_title (text : String) : String :=
  ⟨((text.data.map sanitizeChar).flatten).filter (fun c => c.toNat < 128)⟩

/-- Title construction in `NewsManager.post_to_reddit`: bracketed uppercased
source prefix, sanitize, truncate to 300 with a `...` marker. -/
def redditTitle (source headline : String) : String :=
  let title := _sanitize_title ("[" ++ strUpper source ++ "] " ++ headline)
  if title.length > 300 then String.mk (title.data.take 297) ++ "..." else title

/-- Observable actions of the publish driver, for stating what a batch did. -/
inductive PubEvent where
  | initFail : PubEvent
  | submitOk : Nat → PubEvent
  | submitFail : Nat → PubEvent
  | markPosted : Nat → PubEvent
deriving DecidableEq

/-- `UPDATE rss_data SET posted = 1 WHERE id = ?`. -/
def setPostedById (st : Store) (postId : Nat) : Store :=
  { st with entries := st.entries.map (fun e => if e.id = postId then { e with posted := true } else e) }

/-- `NewsManager.post_to_reddit` (manager.py): everything is inside one
`try/except`.  Driver construction happens first (`init_reddit`); its error
is caught and yields `False`.  Then the title is built and submitted — the
external outcome is the oracle `submitRes title url`; a failure is caught
and yields `False` with no store write.  Only after a successful submission
is `posted = 1` written, and the function returns `True`.  (Flair selection
has no store effect and its failure is swallowed.) -/
def post_to_reddit (env : RedditEnv) (submitRes : String → String → Bool) (ms : MState)
    (postId : Nat) (url headline source : String) : MState × Bool × List PubEvent :=
  match init_reddit env ms with
  | .error _ => (ms, false, [PubEvent.initFail])
  | .ok (ms1, _) =>
    if submitRes (redditTitle source headline) url then
      ({ ms1 with store := setPostedById ms1.store postId }, true,
        [PubEvent.submitOk postId, PubEvent.markPosted postId])
    else (ms1, false, [PubEvent.submitFail postId])

/-- The posting loop of `NewsManager.post_unposted_articles` (manager.py):
skip banned sources and banned domains, otherwise post and count 1 per
`True` result. -/
def post_loop (env : RedditEnv) (submitRes : String → String → Bool) (bs bd : List String) :
    MState → List Row → MState × Nat × List PubEvent
  | ms, [] => (ms, 0, [])
  | ms, r :: rest =>
    if !r.source.isEmpty && bs.contains (strLower r.source) then
      post_loop env submitRes bs bd ms rest
    else if hostBlocked bd r.url then
      post_loop env submitRes bs bd ms rest
    else
      let p := post_to_reddit env submitRes ms r.id r.url r.headline r.source
      let rec1 := post_loop env submitRes bs bd p.1 rest
      (rec1.1, (if p.2.1 then 1 else 0) + rec1.2.1, p.2.2 ++ rec1.2.2)

/-- `NewsManager.post_unposted_articles(limit=5, source=None)` (manager.py):
fetch the unposted selection, return 0 on an empty selection, else run the
posting loop and return the success count. -/
def post_unposted_articles (env : RedditEnv) (submitRes : String → String → Bool)
    (bs bd : List String) (ms : MState) (limit : Nat) (source : Option String) :
    MState × Nat × List PubEvent :=
  let unposted := fetch_unposted_articles bs bd ms.store (some limit) source
  if unposted.isEmpty then (ms, 0, [])
  else post_loop env submitRes bs bd ms unposted

/-! ### Legacy monolith: `src/feed_scraper.py` -/

/-- Legacy `fetch_unposted_articles(limit)`: same query, no block lists. -/
def legacy_fetch_unposted_articles (st : Store) (limit : Option Nat) : List Row :=
  let rows := (sqlOrder (st.entries.filter (fun e => !e.posted))).map toRow
  if optTruthyNat limit then rows.take (limit.getD 0) else rows

/-- Legacy title construction: prefix and truncation, but no
`_sanitize_title` step. -/
def legacy_redditTitle (source headline : String) : String :=
  let title := "[" ++ strUpper source ++ "] " ++ headline
  if title.length > 300 then String.mk (title.data.take 297) ++ "..." else title

/-- Legacy `post_to_reddit`: as in manager.py but with the legacy title. -/
def legacy_post_to_reddit (env : RedditEnv) (submitRes : String → String → Bool) (ms : MState)
    (postId : Nat) (url headline source : String) : MState × Bool × List PubEvent :=
  match init_reddit env ms with
  | .error _ => (ms, false, [PubEvent.initFail])
  | .ok (ms1, _) =>
    if submitRes (legacy_redditTitle source headline) url then
      ({ ms1 with store := setPostedById ms1.store postId }, true,
        [PubEvent.submitOk postId, PubEvent.markPosted postId])
    else (ms1, false, [PubEvent.submitFail postId])

/-- The legacy posting loop (feed_scraper.py lines 886-893): no block-list
skipping, and on a `True` result `posted_count += 1` appears twice, so each
success adds 2 to the returned count. -/
def legacy_post_loop (env : RedditEnv) (submitRes : String → String → Bool) :
    MState → List Row → MState × Nat × List PubEvent
  | ms, [] => (ms, 0, [])
  | ms, r :: rest =>
    let p := legacy_post_to_reddit env submitRes ms r.id r.url r.headline r.source
    let rec1 := legacy_post_loop env submitRes p.1 rest
    (rec1.1, (if p.2.1 then 2 else 0) + rec1.2.1, p.2.2 ++ rec1.2.2)

/-- Legacy `post_unposted_articles(limit=5)`. -/
def legacy_post_unposted_articles (env : RedditEnv) (submitRes : String → String → Bool)
    (ms : MState) (limit : Nat) : MState × Nat × List PubEvent :=
  let unposted := legacy_fetch_unposted_articles ms.store (some limit)
  if unposted.isEmpty then (ms, 0, [])
  else legacy_post_loop env submitRes ms unposted

/-! ### Helpers for the claims -/

/-- The unposted entries that pass both block lists — what the spec calls
the filtered set the limit should paginate. -/
def passingUnposted (bs bd : List String) (st : Store) : List Entry :=
  st.entries.filter (fun e => !e.posted && !rowBlocked bs bd (toRow e))

def isSubmitOkEv : PubEvent → Bool
  | PubEvent.submitOk _ => true
  | _ => false

def countSubmitOk (evs : List PubEvent) : Nat := (evs.filter isSubmitOkEv).length

/-- The ordering predicate of the SQL `ORDER BY` on selected rows:
`published` descending (bytewise), ties broken by `id` descending. -/
def rowOrd (a b : Row) : Prop :=
  strLt b.published a.published = true ∨ (b.published = a.published ∧ b.id ≤ a.id)

/-- Componentwise boundedness of a SHA-256 state by 2^32. -/
def BoundedH (s : Hash8) : Prop :=
  s.a < M32 ∧ s.b < M32 ∧ s.c < M32 ∧ s.d < M32 ∧
    s.e < M32 ∧ s.f < M32 ∧ s.g < M32 ∧ s.h < M32

/-- Candidate with a url of `n` repeated `a`s, fixed other fields; used to
exhibit that SHA-256 cannot be injective in the url field alone. -/
def urlProbe (n : Nat) : Candidate := ⟨String.mk (List.replicate n 'a'), "h", "", "p"⟩

/-! ### Concrete inputs used by witnesses and counterexamples -/

/-- The literal triple of `test_hash_deterministic_and_unique`. -/
def candA : Candidate := ⟨"http://example.com/a", "Title A", "", "2025-09-06T00:00:00"⟩

/-- `candA` with only the url changed. -/
def candB : Candidate := ⟨"http://example.com/b", "Title A", "", "2025-09-06T00:00:00"⟩

/-- A store already holding `candA` under its fingerprint. -/
def storeWithA : Store :=
  ⟨[⟨1, generate_hash candA, "rss", candA.url, candA.headline, "", candA.published, false⟩], 2⟩

/-- C10's boundary-shifted pair: same concatenation, different triples. -/
def candX : Candidate := ⟨"http://x/a", "bT", "", "p"⟩

def candY : Candidate := ⟨"http://x/ab", "T", "", "p"⟩

/-- Disjoint candidates for the 2+3+1 adapter example. -/
def mkCand (k : Nat) : Candidate :=
  ⟨"http://site" ++ toString k ++ ".com/a", "Headline " ++ toString k, "", "2025-01-01"⟩

def adaptersC3 : List (String × Except String (List (Except String Candidate))) :=
  [("rss", .ok [.ok (mkCand 1), .ok (mkCand 2)]),
   ("gov", .ok [.ok (mkCand 3), .ok (mkCand 4), .ok (mkCand 5)]),
   ("broken", .error "network error"),
   ("civiclex", .ok [.ok (mkCand 6)])]

/-- Two unposted entries: the newest is from a blocked domain, the older one
passes; with `limit = 1` the blocked one uses up the whole limit. -/
def storeC4 : Store :=
  ⟨[⟨1, "h1", "s1", "http://blocked.com/x", "Blocked story", "", "2025-01-02", false⟩,
    ⟨2, "h2", "s2", "http://ok.com/y", "Good story", "", "2025-01-01", false⟩], 3⟩

/-- A single unposted entry whose host merely ends in the text of the
blocked domain, with no label boundary. -/
def storeC5 : Store :=
  ⟨[⟨1, "h1", "s1", "http://notexample.com/story", "Story", "", "2025-01-01", false⟩], 2⟩

/-- One unposted entry, for the legacy double-count run. -/
def storeC6 : Store :=
  ⟨[⟨1, "h1", "wtvq", "http://a.com/1", "Breaking news", "", "2025-01-01", false⟩], 2⟩

/-- Two unposted entries, for the missing-credentials batch. -/
def storeC7 : Store :=
  ⟨[⟨1, "h1", "s1", "http://a.com/1", "Story one", "", "2025-01-02", false⟩,
    ⟨2, "h2", "s2", "http://b.com/2", "Story two", "", "2025-01-01", false⟩], 3⟩

/-- The spec's selector-ordering example: same source, all unposted,
published Jan 3 / Jan 1 / Jan 2. -/
def storeC9 : Store :=
  ⟨[⟨1, "h1", "s", "http://a.com/1", "A", "", "2025-01-03", false⟩,
    ⟨2, "h2", "s", "http://a.com/2", "B", "", "2025-01-01", false⟩,
    ⟨3, "h3", "s", "http://a.com/3", "C", "", "2025-01-02", false⟩], 4⟩

/-- A store holding one already-posted entry and one unposted entry. -/
def storeC2 : Store :=
  ⟨[⟨1, "h1", "s1", "http://a.com/1", "Old", "", "2025-01-01", true⟩,
    ⟨2, "h2", "s2", "http://b.com/2", "New", "", "2025-01-02", false⟩], 3⟩

def envMissing : RedditEnv := ⟨none, none, none, none, none, none⟩

def envGood : RedditEnv :=
  ⟨some "id", some "secret", some "agent", some "token", none, none⟩

def submitOkAll : String → String → Bool := fun _ _ => true


/-! ## Theorems -/

theorem charListLt_trans :
    ∀ {x y z : List Char}, charListLt x y = true → charListLt y z = true →
      charListLt x z = true := by
  intro x y z h1 h2
  induction z generalizing x y with
  | nil => simp [charListLt] at h2
  | cons c cs ihz =>
    cases x with
    | nil => simp [charListLt]
    | cons a as =>
      cases y with
      | nil => simp [charListLt] at h1
      | cons b bs =>
        simp only [charListLt] at h1 h2 ⊢
        split_ifs at h1 h2 ⊢ <;>
          first
          | rfl
          | omega
          | exact ihz h1 h2


theorem charListLt_trichotomy (x y : List Char) :
    charListLt x y = true ∨ charListLt y x = true ∨ x = y := by
  induction x generalizing y with
  | nil =>
    cases y with
    | nil => right; right; rfl
    | cons b bs => left; rfl
  | cons a as ih =>
    cases y with
    | nil => right; left; rfl
    | cons b bs =>
      rcases Nat.lt_trichotomy a.toNat b.toNat with h | h | h
      · left; simp [charListLt, h]
      · have hab : a = b := Char.ext (UInt32.ext h)
        subst hab
        rcases ih bs with h' | h' | h'
        · left; simp [charListLt, h']
        · right; left; simp [charListLt, h']
        · right; right; rw [h']
      · right; left; simp [charListLt, h]

theorem strLt_trichotomy (x y : String) :
    strLt x y = true ∨ strLt y x = true ∨ x = y := by
  rcases charListLt_trichotomy x.data y.data with h | h | h
  · exact Or.inl h
  · exact Or.inr (Or.inl h)
  · exact Or.inr (Or.inr (String.ext h))

theorem entryOrd_iff {a b : Entry} :
    entryOrd a b ↔
      (strLt b.published a.published = true ∨
        (b.published = a.published ∧ b.id ≤ a.id)) := by
  unfold entryOrd entryOrdB
  simp [Bool.or_eq_true, Bool.and_eq_true, beq_iff_eq, decide_eq_true_eq]

instance : IsTrans Entry entryOrd where
  trans := by
    intro a b c hab hbc
    rw [entryOrd_iff] at hab hbc ⊢
    rcases hab with hab | ⟨hab, hab2⟩ <;> rcases hbc with hbc | ⟨hbc, hbc2⟩
    · exact Or.inl (charListLt_trans hbc hab)
    · rw [hbc]; exact Or.inl hab
    · rw [← hab]; exact Or.inl hbc
    · exact Or.inr ⟨hbc.trans hab, hbc2.trans hab2⟩

instance : IsTotal Entry entryOrd where
  total := by
    intro a b
    rw [entryOrd_iff, entryOrd_iff]
    rcases strLt_trichotomy a.published b.published with h | h | h
    · exact Or.inr (Or.inl h)
    · exact Or.inl (Or.inl h)
    · rcases Nat.le_total a.id b.id with h' | h'
      · exact Or.inr (Or.inr ⟨h, h'⟩)
      · exact Or.inl (Or.inr ⟨h.symm, h'⟩)

theorem entryOrd_toRow {a b : Entry} (h : entryOrd a b) : rowOrd (toRow a) (toRow b) := by
  rw [entryOrd_iff] at h
  exact h

theorem pairwise_fetch (bs bd : List String) (st : Store) (limit : Option Nat)
    (source : Option String) :
    List.Pairwise rowOrd (fetch_unposted_articles bs bd st limit source) := by
  have h0 : List.Pairwise entryOrd
      (sqlOrder (st.entries.filter (fun e => !e.posted && sourceFilterOk source e))) :=
    List.sorted_insertionSort entryOrd _
  have h1 : List.Pairwise rowOrd
      ((sqlOrder (st.entries.filter (fun e => !e.posted && sourceFilterOk source e))).map toRow) :=
    h0.map toRow (fun a b hab => entryOrd_toRow hab)
  unfold fetch_unposted_articles
  by_cases hL : optTruthyNat limit = true <;>
    by_cases hB : (!bs.isEmpty || !bd.isEmpty) = true <;>
      simp only [hL, hB, if_true, if_false, Bool.not_eq_true] <;>
      first
      | exact ((h1.sublist (List.take_sublist _ _)).sublist (List.filter_sublist _))
      | exact (h1.sublist (List.take_sublist _ _))
      | exact (h1.sublist (List.filter_sublist _))
      | exact h1

/-- C9: for every store state the publish selector returns rows ordered by
published descending with ties broken by id descending, and on the spec's
three-entry example (published Jan 3 / Jan 1 / Jan 2, same source, all
unposted) a limit-2 selection returns the Jan-03 row then the Jan-02 row. -/
theorem C9_selector_ordering :
    (∀ (bs bd : List String) (st : Store) (limit : Option Nat) (source : Option String),
        List.Pairwise rowOrd (fetch_unposted_articles bs bd st limit source))
    ∧ fetch_unposted_articles [] [] storeC9 (some 2) none =
        [⟨1, "http://a.com/1", "A", "s", "2025-01-03"⟩,
         ⟨3, "http://a.com/3", "C", "s", "2025-01-02"⟩] :=
  ⟨pairwise_fetch, by decide⟩

theorem insertOrIgnore_mem_self (st : Store) (hsh s u hl sm p : String) :
    hsh ∈ storeHashes (insertOrIgnore st hsh s u hl sm p).1 := by
  unfold insertOrIgnore
  by_cases hmem : st.entries.any (fun e => e.hash == hsh) = true
  · rw [if_pos hmem]
    rcases List.any_eq_true.mp hmem with ⟨e, he, heq⟩
    exact List.mem_map.mpr ⟨e, he, beq_iff_eq.mp heq⟩
  · rw [if_neg hmem]
    unfold storeHashes
    simp

theorem insertOrIgnore_hashes_mono {x : String} (st : Store) (hsh s u hl sm p : String)
    (hx : x ∈ storeHashes st) : x ∈ storeHashes (insertOrIgnore st hsh s u hl sm p).1 := by
  unfold insertOrIgnore
  by_cases hmem : st.entries.any (fun e => e.hash == hsh) = true
  · rw [if_pos hmem]; exact hx
  · rw [if_neg hmem]
    unfold storeHashes at hx ⊢
    simp only [List.map_append, List.mem_append]
    exact Or.inl hx

theorem insertOrIgnore_noop {st : Store} {hsh : String} (s u hl sm p : String)
    (hmem : hsh ∈ storeHashes st) : insertOrIgnore st hsh s u hl sm p = (st, 0) := by
  unfold insertOrIgnore
  rw [if_pos]
  rcases List.mem_map.mp hmem with ⟨e, he, heq⟩
  exact List.any_eq_true.mpr ⟨e, he, beq_iff_eq.mpr heq⟩

theorem processCandidate_noop {st : Store} {c : Candidate} (n : Nat) (src : String)
    (hmem : generate_hash c ∈ storeHashes st) :
    processCandidate src (st, n) (Except.ok c) = (st, n) := by
  simp [processCandidate, insertOrIgnore_noop _ _ _ _ _ hmem]

theorem processCandidate_hashes_mono {x : String} (src : String) (acc : Store × Nat)
    (c : Except String Candidate) (hx : x ∈ storeHashes acc.1) :
    x ∈ storeHashes (processCandidate src acc c).1 := by
  cases c with
  | error e => exact hx
  | ok cand => exact insertOrIgnore_hashes_mono _ _ _ _ _ _ _ hx

theorem foldl_process_hashes_mono {x : String} (src : String) :
    ∀ (cs : List (Except String Candidate)) (acc : Store × Nat),
      x ∈ storeHashes acc.1 → x ∈ storeHashes ((cs.foldl (processCandidate src) acc).1) := by
  intro cs
  induction cs with
  | nil => intro acc hx; exact hx
  | cons c cs ih =>
    intro acc hx
    rw [List.foldl_cons]
    exact ih _ (processCandidate_hashes_mono src acc c hx)

theorem processCandidate_mem_self (src : String) (acc : Store × Nat) (c : Candidate) :
    generate_hash c ∈ storeHashes (processCandidate src acc (Except.ok c)).1 :=
  insertOrIgnore_mem_self _ _ _ _ _ _ _

theorem foldl_process_all_mem (src : String) :
    ∀ (cs : List (Except String Candidate)) (acc : Store × Nat) (c : Candidate),
      Except.ok c ∈ cs →
      generate_hash c ∈ storeHashes ((cs.foldl (processCandidate src) acc).1) := by
  intro cs
  induction cs with
  | nil => intro acc c hc; cases hc
  | cons d ds ih =>
    intro acc c hc
    rw [List.foldl_cons]
    rcases List.mem_cons.mp hc with hc | hc
    · subst hc
      exact foldl_process_hashes_mono src ds _ (processCandidate_mem_self src acc c)
    · exact ih _ c hc

theorem foldl_process_noop (src : String) :
    ∀ (cs : List (Except String Candidate)) (st : Store) (n : Nat),
      (∀ c : Candidate, Except.ok c ∈ cs → generate_hash c ∈ storeHashes st) →
      cs.foldl (processCandidate src) (st, n) = (st, n) := by
  intro cs
  induction cs with
  | nil => intro st n _; rfl
  | cons d ds ih =>
    intro st n hall
    rw [List.foldl_cons]
    cases d with
    | error e =>
      exact ih st n (fun c hc => hall c (List.mem_cons_of_mem _ hc))
    | ok cand =>
      rw [processCandidate_noop n src (hall cand (List.mem_cons_self _ _))]
      exact ih st n (fun c hc => hall c (List.mem_cons_of_mem _ hc))

theorem scrapeSource_hashes_mono {x : String} (src : String)
    (fetch : Except String (List (Except String Candidate))) (st : Store)
    (hx : x ∈ storeHashes st) : x ∈ storeHashes (scrapeSource src fetch st).1 := by
  cases fetch with
  | error msg => exact hx
  | ok cands => exact foldl_process_hashes_mono src cands (st, 0) hx

theorem scrapeSource_all_mem (src : String) (cands : List (Except String Candidate))
    (st : Store) (c : Candidate) (hc : Except.ok c ∈ cands) :
    generate_hash c ∈ storeHashes (scrapeSource src (Except.ok cands) st).1 :=
  foldl_process_all_mem src cands (st, 0) c hc

theorem scrapeSource_noop (src : String) (cands : List (Except String Candidate))
    (st : Store) (hall : ∀ c : Candidate, Except.ok c ∈ cands →
      generate_hash c ∈ storeHashes st) :
    scrapeSource src (Except.ok cands) st = (st, 0) :=
  foldl_process_noop src cands st 0 hall

theorem foldl_scrape_hashes_mono {x : String} :
    ∀ (ads : List (String × Except String (List (Except String Candidate))))
      (acc : Store × Nat), x ∈ storeHashes acc.1 →
      x ∈ storeHashes ((ads.foldl
        (fun acc a => ((scrapeSource a.1 a.2 acc.1).1, acc.2 + (scrapeSource a.1 a.2 acc.1).2))
        acc).1) := by
  intro ads
  induction ads with
  | nil => intro acc hx; exact hx
  | cons a ads ih =>
    intro acc hx
    rw [List.foldl_cons]
    exact ih _ (scrapeSource_hashes_mono a.1 a.2 acc.1 hx)

theorem scrape_all_all_mem :
    ∀ (ads : List (String × Except String (List (Except String Candidate))))
      (acc : Store × Nat) (k : String) (cands : List (Except String Candidate))
      (c : Candidate), (k, Except.ok cands) ∈ ads → Except.ok c ∈ cands →
      generate_hash c ∈ storeHashes ((ads.foldl
        (fun acc a => ((scrapeSource a.1 a.2 acc.1).1, acc.2 + (scrapeSource a.1 a.2 acc.1).2))
        acc).1) := by
  intro ads
  induction ads with
  | nil => intro acc k cands c hk _; cases hk
  | cons a ads ih =>
    intro acc k cands c hk hc
    rw [List.foldl_cons]
    rcases List.mem_cons.mp hk with hk | hk
    · subst hk
      exact foldl_scrape_hashes_mono ads _ (scrapeSource_all_mem k cands acc.1 c hc)
    · exact ih _ k cands c hk hc

theorem scrape_all_noop :
    ∀ (ads : List (String × Except String (List (Except String Candidate))))
      (st : Store) (n : Nat),
      (∀ (k : String) (cands : List (Except String Candidate)) (c : Candidate),
        (k, Except.ok cands) ∈ ads → Except.ok c ∈ cands →
        generate_hash c ∈ storeHashes st) →
      ads.foldl
        (fun acc a => ((scrapeSource a.1 a.2 acc.1).1, acc.2 + (scrapeSource a.1 a.2 acc.1).2))
        (st, n) = (st, n) := by
  intro ads
  induction ads with
  | nil => intro st n _; rfl
  | cons a ads ih =>
    intro st n hall
    rw [List.foldl_cons]
    obtain ⟨k, fetch⟩ := a
    cases fetch with
    | error msg =>
      show ads.foldl _ (st, n + 0) = (st, n)
      rw [Nat.add_zero]
      exact ih st n (fun k' cs c hk hc => hall k' cs c (List.mem_cons_of_mem _ hk) hc)
    | ok cands =>
      have hsrc : scrapeSource k (Except.ok cands) st = (st, 0) :=
        scrapeSource_noop k cands st
          (fun c hc => hall k cands c (List.mem_cons_self _ _) hc)
      show ads.foldl _
          ((scrapeSource k (Except.ok cands) st).1,
            n + (scrapeSource k (Except.ok cands) st).2) = (st, n)
      rw [hsrc]
      show ads.foldl _ (st, n + 0) = (st, n)
      rw [Nat.add_zero]
      exact ih st n (fun k' cs c hk hc => hall k' cs c (List.mem_cons_of_mem _ hk) hc)

/-- C1: inserting a candidate whose fingerprint is already present is a
no-op (the whole store, hence every field of the existing entry, is
unchanged) contributing 0 to the new-entry count; a second run of one
source over the same candidate list, and a second full `scrape_all` run
over an unchanged adapter set, leave the store unchanged and return a
new-count of 0. -/
theorem C1_idempotent_ingestion :
    (∀ (st : Store) (n : Nat) (src : String) (c : Candidate),
        generate_hash c ∈ storeHashes st →
        processCandidate src (st, n) (Except.ok c) = (st, n))
    ∧ (∀ (src : String) (cands : List (Except String Candidate)) (st : Store),
        scrapeSource src (Except.ok cands) ((scrapeSource src (Except.ok cands) st).1) =
          ((scrapeSource src (Except.ok cands) st).1, 0))
    ∧ (∀ (adapters : List (String × Except String (List (Except String Candidate))))
        (st : Store),
        scrape_all adapters ((scrape_all adapters st).1) = ((scrape_all adapters st).1, 0)) := by
  refine ⟨?_, ?_, ?_⟩
  · intro st n src c hmem
    exact processCandidate_noop n src hmem
  · intro src cands st
    show cands.foldl (processCandidate src) (_, 0) = _
    exact foldl_process_noop src cands _ 0
      (fun c hc => foldl_process_all_mem src cands (st, 0) c hc)
  · intro adapters st
    show adapters.foldl _ (_, 0) = _
    exact scrape_all_noop adapters _ 0
      (fun k cands c hk hc => scrape_all_all_mem adapters (st, 0) k cands c hk hc)

/-- Witness for C1 at a concrete input: the store already holds an entry
with `candA`'s fingerprint, so re-inserting `candA` changes nothing. -/
theorem C1_witness :
    processCandidate "rss" (storeWithA, 0) (Except.ok candA) = (storeWithA, 0) :=
  C1_idempotent_ingestion.1 storeWithA 0 "rss" candA (by simp [storeHashes, storeWithA])

theorem insertOrIgnore_entries_mono {e : Entry} (st : Store) (hsh s u hl sm p : String)
    (he : e ∈ st.entries) : e ∈ (insertOrIgnore st hsh s u hl sm p).1.entries := by
  unfold insertOrIgnore
  by_cases hmem : st.entries.any (fun x => x.hash == hsh) = true
  · rw [if_pos hmem]; exact he
  · rw [if_neg hmem]; exact List.mem_append_left _ he

theorem insertOrIgnore_new_unposted {e : Entry} (st : Store) (hsh s u hl sm p : String)
    (he : e ∈ (insertOrIgnore st hsh s u hl sm p).1.entries) :
    e ∈ st.entries ∨ e.posted = false := by
  unfold insertOrIgnore at he
  by_cases hmem : st.entries.any (fun x => x.hash == hsh) = true
  · rw [if_pos hmem] at he; exact Or.inl he
  · rw [if_neg hmem] at he
    rcases List.mem_append.mp he with he | he
    · exact Or.inl he
    · right
      rcases List.mem_singleton.mp he with rfl
      rfl

theorem processCandidate_entries_mono {e : Entry} (src : String) (acc : Store × Nat)
    (c : Except String Candidate) (he : e ∈ acc.1.entries) :
    e ∈ (processCandidate src acc c).1.entries := by
  cases c with
  | error msg => exact he
  | ok cand => exact insertOrIgnore_entries_mono _ _ _ _ _ _ _ he

theorem processCandidate_new_unposted {e : Entry} (src : String) (acc : Store × Nat)
    (c : Except String Candidate) (he : e ∈ (processCandidate src acc c).1.entries) :
    e ∈ acc.1.entries ∨ e.posted = false := by
  cases c with
  | error msg => exact Or.inl he
  | ok cand => exact insertOrIgnore_new_unposted _ _ _ _ _ _ _ he

theorem foldl_process_entries_mono {e : Entry} (src : String) :
    ∀ (cs : List (Except String Candidate)) (acc : Store × Nat),
      e ∈ acc.1.entries → e ∈ ((cs.foldl (processCandidate src) acc).1).entries := by
  intro cs
  induction cs with
  | nil => intro acc he; exact he
  | cons c cs ih =>
    intro acc he
    rw [List.foldl_cons]
    exact ih _ (processCandidate_entries_mono src acc c he)

theorem foldl_process_new_unposted {e : Entry} (src : String) :
    ∀ (cs : List (Except String Candidate)) (acc : Store × Nat),
      e ∈ ((cs.foldl (processCandidate src) acc).1).entries →
      e ∈ acc.1.entries ∨ e.posted = false := by
  intro cs
  induction cs with
  | nil => intro acc he; exact Or.inl he
  | cons c cs ih =>
    intro acc he
    rw [List.foldl_cons] at he
    rcases ih _ he with he' | hp
    · exact processCandidate_new_unposted src acc c he'
    · exact Or.inr hp

theorem scrapeSource_entries_mono {e : Entry} (src : String)
    (fetch : Except String (List (Except String Candidate))) (st : Store)
    (he : e ∈ st.entries) : e ∈ (scrapeSource src fetch st).1.entries := by
  cases fetch with
  | error msg => exact he
  | ok cands => exact foldl_process_entries_mono src cands (st, 0) he

theorem scrapeSource_new_unposted {e : Entry} (src : String)
    (fetch : Except String (List (Except String Candidate))) (st : Store)
    (he : e ∈ (scrapeSource src fetch st).1.entries) :
    e ∈ st.entries ∨ e.posted = false := by
  cases fetch with
  | error msg => exact Or.inl he
  | ok cands => exact foldl_process_new_unposted src cands (st, 0) he

theorem foldl_scrape_entries_mono {e : Entry} :
    ∀ (ads : List (String × Except String (List (Except String Candidate))))
      (acc : Store × Nat), e ∈ acc.1.entries →
      e ∈ ((ads.foldl
        (fun acc a => ((scrapeSource a.1 a.2 acc.1).1, acc.2 + (scrapeSource a.1 a.2 acc.1).2))
        acc).1).entries := by
  intro ads
  induction ads with
  | nil => intro acc he; exact he
  | cons a ads ih =>
    intro acc he
    rw [List.foldl_cons]
    exact ih _ (scrapeSource_entries_mono a.1 a.2 acc.1 he)

theorem foldl_scrape_new_unposted {e : Entry} :
    ∀ (ads : List (String × Except String (List (Except String Candidate))))
      (acc : Store × Nat),
      e ∈ ((ads.foldl
        (fun acc a => ((scrapeSource a.1 a.2 acc.1).1, acc.2 + (scrapeSource a.1 a.2 acc.1).2))
        acc).1).entries →
      e ∈ acc.1.entries ∨ e.posted = false := by
  intro ads
  induction ads with
  | nil => intro acc he; exact Or.inl he
  | cons a ads ih =>
    intro acc he
    rw [List.foldl_cons] at he
    rcases ih _ he with he' | hp
    · exact scrapeSource_new_unposted a.1 a.2 acc.1 he'
    · exact Or.inr hp

theorem setPostedById_posted_preserved {e : Entry} (st : Store) (postId : Nat)
    (he : e ∈ st.entries) (hp : e.posted = true) : e ∈ (setPostedById st postId).entries := by
  unfold setPostedById
  have hfix : (fun x : Entry => if x.id = postId then { x with posted := true } else x) e = e := by
    obtain ⟨i, hs, so, u, hl, sm, p, po⟩ := e
    have hp' : po = true := hp
    subst hp'
    by_cases hid : i = postId <;> simp [hid]
  have hmem := List.mem_map_of_mem
    (fun x : Entry => if x.id = postId then { x with posted := true } else x) he
  rwa [hfix] at hmem

theorem init_reddit_ok_store {env : RedditEnv} {ms ms1 : MState}
    {c : List (String × String)} (h : init_reddit env ms = Except.ok (ms1, c)) :
    ms1.store = ms.store := by
  unfold init_reddit at h
  cases hr : ms.reddit with
  | some cfg => rw [hr] at h; cases h; rfl
  | none =>
    rw [hr] at h
    cases hb : _build_reddit_config env with
    | error msg => rw [hb] at h; cases h
    | ok cfg => rw [hb] at h; cases h; rfl

theorem post_to_reddit_posted_preserved {e : Entry} (env : RedditEnv)
    (submitRes : String → String → Bool) (ms : MState) (postId : Nat)
    (url headline source : String) (he : e ∈ ms.store.entries) (hp : e.posted = true) :
    e ∈ (post_to_reddit env submitRes ms postId url headline source).1.store.entries := by
  unfold post_to_reddit
  cases hi : init_reddit env ms with
  | error msg => exact he
  | ok pair =>
    obtain ⟨ms1, c⟩ := pair
    have hst : ms1.store = ms.store := init_reddit_ok_store hi
    by_cases hsub : submitRes (redditTitle source headline) url = true
    · simp only [if_pos hsub]
      exact setPostedById_posted_preserved _ _ (hst ▸ he) hp
    · simp only [if_neg hsub]
      exact hst ▸ he

theorem post_to_reddit_fail_store (env : RedditEnv) (submitRes : String → String → Bool)
    (ms : MState) (postId : Nat) (url headline source : String)
    (hf : (post_to_reddit env submitRes ms postId url headline source).2.1 = false) :
    (post_to_reddit env submitRes ms postId url headline source).1.store = ms.store := by
  unfold post_to_reddit at hf ⊢
  cases hi : init_reddit env ms with
  | error msg => rfl
  | ok pair =>
    obtain ⟨ms1, c⟩ := pair
    rw [hi] at hf
    by_cases hsub : submitRes (redditTitle source headline) url = true
    · simp only [if_pos hsub] at hf; cases hf
    · simp only [if_neg hsub]
      exact init_reddit_ok_store hi

theorem post_loop_cons (env : RedditEnv) (submitRes : String → String → Bool)
    (bs bd : List String) (ms : MState) (r : Row) (rest : List Row) :
    post_loop env submitRes bs bd ms (r :: rest) =
      if !r.source.isEmpty && bs.contains (strLower r.source) then
        post_loop env submitRes bs bd ms rest
      else if hostBlocked bd r.url then
        post_loop env submitRes bs bd ms rest
      else
        ((post_loop env submitRes bs bd
            (post_to_reddit env submitRes ms r.id r.url r.headline r.source).1 rest).1,
         (if (post_to_reddit env submitRes ms r.id r.url r.headline r.source).2.1 then 1 else 0) +
           (post_loop env submitRes bs bd
             (post_to_reddit env submitRes ms r.id r.url r.headline r.source).1 rest).2.1,
         (post_to_reddit env submitRes ms r.id r.url r.headline r.source).2.2 ++
           (post_loop env submitRes bs bd
             (post_to_reddit env submitRes ms r.id r.url r.headline r.source).1 rest).2.2) :=
  rfl

theorem post_loop_posted_preserved {e : Entry} (env : RedditEnv)
    (submitRes : String → String → Bool) (bs bd : List String) :
    ∀ (rows : List Row) (ms : MState), e ∈ ms.store.entries → e.posted = true →
      e ∈ (post_loop env submitRes bs bd ms rows).1.store.entries := by
  intro rows
  induction rows with
  | nil => intro ms he _; exact he
  | cons r rest ih =>
    intro ms he hp
    rw [post_loop_cons]
    by_cases h1 : (!r.source.isEmpty && bs.contains (strLower r.source)) = true
    · rw [if_pos h1]; exact ih ms he hp
    · rw [if_neg h1]
      by_cases h2 : hostBlocked bd r.url = true
      · rw [if_pos h2]; exact ih ms he hp
      · rw [if_neg h2]
        exact ih _ (post_to_reddit_posted_preserved env submitRes ms r.id r.url
          r.headline r.source he hp) hp

theorem fetch_row_from_unposted (bs bd : List String) (st : Store) (limit : Option Nat)
    (source : Option String) (r : Row)
    (hr : r ∈ fetch_unposted_articles bs bd st limit source) :
    ∃ e, e ∈ st.entries ∧ e.posted = false ∧ r = toRow e := by
  have base :
      ∀ x : Row,
        x ∈ (sqlOrder (st.entries.filter (fun e => !e.posted && sourceFilterOk source e))).map toRow →
        ∃ e, e ∈ st.entries ∧ e.posted = false ∧ x = toRow e := by
    intro x hx
    rcases List.mem_map.mp hx with ⟨e, hes, hex⟩
    have hef : e ∈ st.entries.filter (fun e => !e.posted && sourceFilterOk source e) :=
      (List.Perm.mem_iff (List.perm_insertionSort entryOrd _)).mp hes
    rcases List.mem_filter.mp hef with ⟨hee, hcond⟩
    have hcond' : (!e.posted) = true ∧ sourceFilterOk source e = true := by simpa using hcond
    exact ⟨e, hee, by simpa using hcond'.1, hex.symm⟩
  unfold fetch_unposted_articles at hr
  by_cases hL : optTruthyNat limit = true <;>
    by_cases hB : (!bs.isEmpty || !bd.isEmpty) = true <;>
      simp only [hL, hB, if_true, if_false] at hr
  · exact base r (List.mem_of_mem_take (List.mem_filter.mp hr).1)
  · exact base r (List.mem_of_mem_take hr)
  · exact base r (List.mem_filter.mp hr).1
  · exact base r hr

/-- C2: the posted flag starts false (ingestion only ever creates unposted
entries), already-posted entries pass through ingestion and publishing
completely unchanged, the publish driver leaves the store untouched
whenever a post is not confirmed successful, and the publish selector
only ever returns rows of unposted entries. -/
theorem C2_posted_monotonic :
    (∀ (adapters : List (String × Except String (List (Except String Candidate))))
        (st : Store) (e : Entry), e ∈ st.entries → e.posted = true →
        e ∈ (scrape_all adapters st).1.entries)
    ∧ (∀ (adapters : List (String × Except String (List (Except String Candidate))))
        (st : Store) (e : Entry), e ∈ (scrape_all adapters st).1.entries →
        e ∈ st.entries ∨ e.posted = false)
    ∧ (∀ (env : RedditEnv) (submitRes : String → String → Bool) (bs bd : List String)
        (ms : MState) (limit : Nat) (source : Option String) (e : Entry),
        e ∈ ms.store.entries → e.posted = true →
        e ∈ (post_unposted_articles env submitRes bs bd ms limit source).1.store.entries)
    ∧ (∀ (env : RedditEnv) (submitRes : String → String → Bool) (ms : MState)
        (postId : Nat) (url headline source : String),
        (post_to_reddit env submitRes ms postId url headline source).2.1 = false →
        (post_to_reddit env submitRes ms postId url headline source).1.store = ms.store)
    ∧ (∀ (bs bd : List String) (st : Store) (limit : Option Nat) (source : Option String)
        (r : Row), r ∈ fetch_unposted_articles bs bd st limit source →
        ∃ e, e ∈ st.entries ∧ e.posted = false ∧ r = toRow e) := by
  refine ⟨?_, ?_, ?_, ?_, ?_⟩
  · intro adapters st e he _
    exact foldl_scrape_entries_mono adapters (st, 0) he
  · intro adapters st e he
    exact foldl_scrape_new_unposted adapters (st, 0) he
  · intro env submitRes bs bd ms limit source e he hp
    unfold post_unposted_articles
    by_cases hE : (fetch_unposted_articles bs bd ms.store (some limit) source).isEmpty = true
    · rw [if_pos hE]; exact he
    · rw [if_neg hE]
      exact post_loop_posted_preserved env submitRes bs bd _ ms he hp
  · intro env submitRes ms postId url headline source hf
    exact post_to_reddit_fail_store env submitRes ms postId url headline source hf
  · intro bs bd st limit source r hr
    exact fetch_row_from_unposted bs bd st limit source r hr

/-- Witness for C2 at concrete inputs: the posted entry of `storeC2`
survives a scrape with a failing adapter and a credential-less publish run
unchanged, a failed post leaves the store as it was, and the selector on
`storeC2` only reports the unposted entry. -/
theorem C2_witness :
    (⟨1, "h1", "s1", "http://a.com/1", "Old", "", "2025-01-01", true⟩ : Entry) ∈
        (scrape_all [("broken", Except.error "boom")] storeC2).1.entries
    ∧ ((⟨1, "h1", "s1", "http://a.com/1", "Old", "", "2025-01-01", true⟩ : Entry) ∈
          (scrape_all [("broken", Except.error "boom")] storeC2).1.entries →
        (⟨1, "h1", "s1", "http://a.com/1", "Old", "", "2025-01-01", true⟩ : Entry) ∈
          storeC2.entries ∨ False)
    ∧ (⟨1, "h1", "s1", "http://a.com/1", "Old", "", "2025-01-01", true⟩ : Entry) ∈
        (post_unposted_articles envMissing submitOkAll [] [] ⟨storeC2, none⟩ 5
          none).1.store.entries
    ∧ (post_to_reddit envMissing submitOkAll ⟨storeC2, none⟩ 2 "http://b.com/2" "New"
          "s2").1.store = storeC2
    ∧ ∃ e, e ∈ storeC2.entries ∧ e.posted = false ∧
        (⟨2, "http://b.com/2", "New", "s2", "2025-01-02"⟩ : Row) = toRow e := by
  refine ⟨?h1, ?h2, ?h3, ?h4, ?h5⟩
  case h1 =>
    exact C2_posted_monotonic.1 _ storeC2 _ (by decide) (by decide)
  case h2 =>
    intro hmem
    rcases C2_posted_monotonic.2.1 _ storeC2 _ hmem with hin | hfalse
    · exact Or.inl hin
    · cases hfalse
  case h3 =>
    exact C2_posted_monotonic.2.2.1 envMissing submitOkAll [] [] ⟨storeC2, none⟩ 5 none _
      (by decide) (by decide)
  case h4 =>
    exact C2_posted_monotonic.2.2.2.1 envMissing submitOkAll ⟨storeC2, none⟩ 2
      "http://b.com/2" "New" "s2" (by decide)
  case h5 =>
    exact C2_posted_monotonic.2.2.2.2 [] [] storeC2 (some 5) none _ (by decide)

set_option maxRecDepth 8000

theorem foldl_scrape_acc :
    ∀ (ads : List (String × Except String (List (Except String Candidate))))
      (st : Store) (n : Nat),
      ads.foldl
        (fun acc a => ((scrapeSource a.1 a.2 acc.1).1, acc.2 + (scrapeSource a.1 a.2 acc.1).2))
        (st, n) =
      ((ads.foldl
          (fun acc a => ((scrapeSource a.1 a.2 acc.1).1, acc.2 + (scrapeSource a.1 a.2 acc.1).2))
          (st, 0)).1,
        n + (ads.foldl
          (fun acc a => ((scrapeSource a.1 a.2 acc.1).1, acc.2 + (scrapeSource a.1 a.2 acc.1).2))
          (st, 0)).2) := by
  intro ads
  induction ads with
  | nil => intro st n; simp
  | cons a ads ih =>
    intro st n
    simp only [List.foldl_cons]
    rw [ih ((scrapeSource a.1 a.2 st).1) (n + (scrapeSource a.1 a.2 st).2),
        ih ((scrapeSource a.1 a.2 st).1) (0 + (scrapeSource a.1 a.2 st).2)]
    simp only [Prod.mk.injEq]
    exact ⟨trivial, by omega⟩

theorem scrape_all_cons (a : String × Except String (List (Except String Candidate)))
    (l : List (String × Except String (List (Except String Candidate)))) (st : Store) :
    scrape_all (a :: l) st =
      ((scrape_all l (scrapeSource a.1 a.2 st).1).1,
        (scrapeSource a.1 a.2 st).2 + (scrape_all l (scrapeSource a.1 a.2 st).1).2) := by
  unfold scrape_all
  simp only [List.foldl_cons]
  rw [foldl_scrape_acc]
  simp

/-- C3: an adapter whose fetch raises contributes nothing — the full run
over any adapter list containing it equals the run with it removed, so
the other adapters still execute and the total is the sum of their
new-entry counts; on the spec's example (adapters yielding 2, 3 and 1 new
entries plus one always-failing adapter) the total is 6, not an
exception. -/
theorem C3_failure_isolation :
    (∀ (pre post : List (String × Except String (List (Except String Candidate))))
        (k msg : String) (st : Store),
        scrape_all (pre ++ (k, Except.error msg) :: post) st = scrape_all (pre ++ post) st)
    ∧ (∀ (a : String × Except String (List (Except String Candidate)))
        (l : List (String × Except String (List (Except String Candidate)))) (st : Store),
        scrape_all (a :: l) st =
          ((scrape_all l (scrapeSource a.1 a.2 st).1).1,
            (scrapeSource a.1 a.2 st).2 + (scrape_all l (scrapeSource a.1 a.2 st).1).2))
    ∧ (scrape_all adaptersC3 emptyStore).2 = 6 := by
  refine ⟨?_, scrape_all_cons, by decide⟩
  intro pre
  induction pre with
  | nil =>
    intro post k msg st
    simp only [List.nil_append]
    rw [scrape_all_cons]
    simp [scrapeSource]
  | cons a pre ih =>
    intro post k msg st
    simp only [List.cons_append]
    rw [scrape_all_cons, scrape_all_cons, ih]

theorem fetch_len_le (bs bd : List String) (st : Store) (l : Nat) (source : Option String)
    (hl : 0 < l) : (fetch_unposted_articles bs bd st (some l) source).length ≤ l := by
  unfold fetch_unposted_articles
  have hT : optTruthyNat (some l) = true := by
    simp only [optTruthyNat, ne_eq, bne_iff_ne]
    omega
  simp only [hT, if_true, Option.getD]
  by_cases hB : (!bs.isEmpty || !bd.isEmpty) = true <;> simp only [hB, if_true, if_false]
  · exact le_trans (List.length_filter_le _ _) (List.length_take_le _ _)
  · exact List.length_take_le _ _

theorem fetch_not_blocked (bs bd : List String) (st : Store) (limit : Option Nat)
    (source : Option String) (r : Row) (hr : r ∈ fetch_unposted_articles bs bd st limit source) :
    rowBlocked bs bd r = false := by
  unfold fetch_unposted_articles at hr
  by_cases hB : (!bs.isEmpty || !bd.isEmpty) = true
  · simp only [hB, if_true] at hr
    by_cases hL : optTruthyNat limit = true <;> simp only [hL, if_true, if_false] at hr <;>
      simpa using (List.mem_filter.mp hr).2
  · have hbs : bs = [] := by
      rcases bs with _ | ⟨x, xs⟩
      · rfl
      · simp at hB
    have hbd : bd = [] := by
      rcases bd with _ | ⟨x, xs⟩
      · rfl
      · simp [hbs] at hB
    subst hbs; subst hbd
    simp [rowBlocked, hostBlocked]

/-- C4 (amended): the `LIMIT` is applied at the SQL layer before the
in-Python block-list filtering, so blocked rows do consume the limit: the
result never exceeds the limit and every returned row passes both block
lists, but the result can fall short of the limit even when enough
passing unposted entries exist — on `storeC4` (a blocked newest entry and
a passing older one) a limit-1 selection returns nothing although one
passing unposted entry is present. -/
theorem C4_limit_before_filtering :
    (∀ (bs bd : List String) (st : Store) (l : Nat) (source : Option String), 0 < l →
        (fetch_unposted_articles bs bd st (some l) source).length ≤ l)
    ∧ (∀ (bs bd : List String) (st : Store) (limit : Option Nat) (source : Option String)
        (r : Row), r ∈ fetch_unposted_articles bs bd st limit source →
        rowBlocked bs bd r = false)
    ∧ ((fetch_unposted_articles [] ["blocked.com"] storeC4 (some 1) none).length = 0
        ∧ 1 ≤ (passingUnposted [] ["blocked.com"] storeC4).length) :=
  ⟨fetch_len_le, fetch_not_blocked, by decide⟩

/-- Witness for C4 at concrete inputs: with limit 1 on `storeC4` the
selection length is bounded by 1, and the one row selected from `storeC9`
without block lists is unblocked. -/
theorem C4_witness :
    (fetch_unposted_articles [] ["blocked.com"] storeC4 (some 1) none).length ≤ 1
    ∧ rowBlocked [] [] (⟨1, "http://a.com/1", "A", "s", "2025-01-03"⟩ : Row) = false :=
  ⟨C4_limit_before_filtering.1 [] ["blocked.com"] storeC4 1 none (by decide),
   C4_limit_before_filtering.2.1 [] [] storeC9 (some 2) none
     ⟨1, "http://a.com/1", "A", "s", "2025-01-03"⟩ (by decide)⟩

/-- C4 counterexample: the claim "the result contains exactly `limit`
entries whenever at least `limit` unposted entries pass both block lists"
fails on `storeC4` with limit 1: one passing unposted entry exists, yet
the selection is empty, because the blocked newest row used up the SQL
`LIMIT` before filtering. -/
theorem C4_counterexample :
    1 ≤ (passingUnposted [] ["blocked.com"] storeC4).length
    ∧ (fetch_unposted_articles [] ["blocked.com"] storeC4 (some 1) none).length ≠ 1 := by
  decide

theorem dot_suffix_suffix {host d : String}
    (h : strEndsWith host ("." ++ d) = true) : strEndsWith host d = true := by
  unfold strEndsWith at h ⊢
  have hsub : ("." ++ d).data <:+ host.data := of_decide_eq_true h
  have hd : d.data <:+ ("." ++ d).data := by
    refine ⟨['.'], ?_⟩
    rw [String.data_append]
  exact decide_eq_true (hd.trans hsub)

theorem str_isEmpty_false_iff (s : String) : s.isEmpty = false ↔ s ≠ "" := by
  rw [Bool.eq_false_iff]
  exact not_congr (String.isEmpty_iff s)

theorem hostBlocked_iff (bd : List String) (url : String) :
    hostBlocked bd url = true ↔
      (hostOf url ≠ "" ∧ ∃ d ∈ bd, strEndsWith (hostOf url) d = true ∨ hostOf url = d) := by
  unfold hostBlocked
  simp only [Bool.and_eq_true, List.any_eq_true, Bool.or_eq_true, Bool.not_eq_true',
    str_isEmpty_false_iff, beq_iff_eq]

/-- C5 (amended): the blocked-domain test is a plain text-suffix match on
the lowercased host: an entry is excluded on domain grounds exactly when
its host is nonempty and some blocked domain equals it or is a plain
suffix of it.  Every host that equals a blocked domain or is a subdomain
of one (dot boundary) is excluded — but so is a host that merely ends in
the blocked domain's text, such as `notexample.com` against
`example.com`. -/
theorem C5_domain_matching :
    (∀ (bd : List String) (url : String),
        hostBlocked bd url = true ↔
          (hostOf url ≠ "" ∧ ∃ d ∈ bd, strEndsWith (hostOf url) d = true ∨ hostOf url = d))
    ∧ (∀ (bd : List String) (url d : String), d ∈ bd →
        specDomainMatch (hostOf url) d = true → hostOf url ≠ "" →
        hostBlocked bd url = true)
    ∧ (hostBlocked ["example.com"] "http://sub.example.com/a" = true
        ∧ hostBlocked ["example.com"] "http://example.com/a" = true
        ∧ hostBlocked ["example.com"] "http://other.org/a" = false
        ∧ hostBlocked ["example.com"] "http://notexample.com/story" = true) := by
  refine ⟨hostBlocked_iff, ?_, by decide⟩
  intro bd url d hd hmatch hne
  have hmatch' : (hostOf url == d) = true ∨ strEndsWith (hostOf url) ("." ++ d) = true := by
    simpa [specDomainMatch] using hmatch
  rcases hmatch' with h | h
  · exact (hostBlocked_iff bd url).mpr ⟨hne, d, hd, Or.inr (by simpa using h)⟩
  · exact (hostBlocked_iff bd url).mpr ⟨hne, d, hd, Or.inl (dot_suffix_suffix h)⟩

/-- Witness for C5 at a concrete input: `sub.example.com` is a subdomain
of the blocked domain `example.com`, so the entry is excluded. -/
theorem C5_witness :
    hostBlocked ["example.com"] "http://sub.example.com/a" = true :=
  C5_domain_matching.2.1 ["example.com"] "http://sub.example.com/a" "example.com"
    (by simp) (by decide) (by decide)

/-- C5 counterexample: the claim's "only label-boundary subdomains (or
equality) are excluded" fails at host `notexample.com` against blocked
domain `example.com`: the code's suffix test excludes the entry (and the
selector drops it from `storeC5`) although the host neither equals
`example.com` nor is a dot-separated subdomain of it. -/
theorem C5_counterexample :
    hostBlocked ["example.com"] "http://notexample.com/story" = true
    ∧ specDomainMatch (hostOf "http://notexample.com/story") "example.com" = false
    ∧ fetch_unposted_articles [] ["example.com"] storeC5 none none = [] := by
  decide

theorem countSubmitOk_append (l1 l2 : List PubEvent) :
    countSubmitOk (l1 ++ l2) = countSubmitOk l1 + countSubmitOk l2 := by
  simp [countSubmitOk, List.filter_append]

theorem post_to_reddit_count (env : RedditEnv) (submitRes : String → String → Bool)
    (ms : MState) (postId : Nat) (url headline source : String) :
    (if (post_to_reddit env submitRes ms postId url headline source).2.1 then 1 else 0) =
      countSubmitOk (post_to_reddit env submitRes ms postId url headline source).2.2 := by
  unfold post_to_reddit
  cases hi : init_reddit env ms with
  | error m => rfl
  | ok pair =>
    obtain ⟨ms1, c⟩ := pair
    by_cases hsub : submitRes (redditTitle source headline) url = true
    · simp only [if_pos hsub]
      rfl
    · simp only [if_neg hsub]
      rfl

theorem post_loop_count (env : RedditEnv) (submitRes : String → String → Bool)
    (bs bd : List String) :
    ∀ (rows : List Row) (ms : MState),
      (post_loop env submitRes bs bd ms rows).2.1 =
        countSubmitOk (post_loop env submitRes bs bd ms rows).2.2 := by
  intro rows
  induction rows with
  | nil => intro ms; rfl
  | cons r rest ih =>
    intro ms
    rw [post_loop_cons]
    by_cases h1 : (!r.source.isEmpty && bs.contains (strLower r.source)) = true
    · rw [if_pos h1]; exact ih ms
    · rw [if_neg h1]
      by_cases h2 : hostBlocked bd r.url = true
      · rw [if_pos h2]; exact ih ms
      · rw [if_neg h2]
        show _ + _ = countSubmitOk (_ ++ _)
        rw [countSubmitOk_append, ih, post_to_reddit_count]

/-- C6: the refactored publish operation returns exactly the number of
successful external submissions of the batch (each success adds 1, each
failure or skip adds 0, and the operation is total — it cannot raise on a
partial failure); the legacy monolith violates this: on one unposted
entry whose submission succeeds it returns 2 because of its duplicated
`posted_count += 1`, while the refactored manager returns 1. -/
theorem C6_publish_count :
    (∀ (env : RedditEnv) (submitRes : String → String → Bool) (bs bd : List String)
        (ms : MState) (limit : Nat) (source : Option String),
        (post_unposted_articles env submitRes bs bd ms limit source).2.1 =
          countSubmitOk (post_unposted_articles env submitRes bs bd ms limit source).2.2)
    ∧ ((legacy_post_unposted_articles envGood submitOkAll ⟨storeC6, none⟩ 5).2.1 = 2
        ∧ countSubmitOk
            (legacy_post_unposted_articles envGood submitOkAll ⟨storeC6, none⟩ 5).2.2 = 1
        ∧ (post_unposted_articles envGood submitOkAll [] [] ⟨storeC6, none⟩ 5 none).2.1 = 1) := by
  constructor
  · intro env submitRes bs bd ms limit source
    unfold post_unposted_articles
    by_cases hE :
        (fetch_unposted_articles bs bd ms.store (some limit) source).isEmpty = true
    · simp only [hE, if_true]
      rfl
    · simp only [hE, if_false]
      exact post_loop_count env submitRes bs bd _ ms
  · decide

theorem post_to_reddit_no_creds (env : RedditEnv) (submitRes : String → String → Bool)
    (m : String) (hcfg : _build_reddit_config env = Except.error m) (ms : MState)
    (hms : ms.reddit = none) (postId : Nat) (url headline source : String) :
    post_to_reddit env submitRes ms postId url headline source =
      (ms, false, [PubEvent.initFail]) := by
  unfold post_to_reddit init_reddit
  rw [hms, hcfg]

theorem post_loop_no_creds (env : RedditEnv) (submitRes : String → String → Bool)
    (bs bd : List String) (m : String) (hcfg : _build_reddit_config env = Except.error m) :
    ∀ (rows : List Row) (ms : MState), ms.reddit = none →
      (post_loop env submitRes bs bd ms rows).1 = ms
      ∧ (post_loop env submitRes bs bd ms rows).2.1 = 0
      ∧ ∀ ev ∈ (post_loop env submitRes bs bd ms rows).2.2, ev = PubEvent.initFail := by
  intro rows
  induction rows with
  | nil =>
    intro ms hms
    exact ⟨rfl, rfl, by intro ev hev; exact absurd hev (List.not_mem_nil ev)⟩
  | cons r rest ih =>
    intro ms hms
    rw [post_loop_cons]
    by_cases h1 : (!r.source.isEmpty && bs.contains (strLower r.source)) = true
    · rw [if_pos h1]; exact ih ms hms
    · rw [if_neg h1]
      by_cases h2 : hostBlocked bd r.url = true
      · rw [if_pos h2]; exact ih ms hms
      · rw [if_neg h2]
        rw [post_to_reddit_no_creds env submitRes m hcfg ms hms r.id r.url r.headline r.source]
        obtain ⟨ha, hb, hc⟩ := ih ms hms
        refine ⟨ha, ?_, ?_⟩
        · show (if false = true then 1 else 0) + (post_loop env submitRes bs bd ms rest).2.1 = 0
          simp [hb]
        · intro ev hev
          rcases List.mem_append.mp hev with hev | hev
          · rcases List.mem_singleton.mp hev with rfl
            rfl
          · exact hc ev hev

/-- C7 (amended): when the required Reddit credentials are missing the
publish-driver construction does raise a clear error, but the batch
operation catches that error once per selected entry and keeps going: it
iterates the whole selection, performs no submission and no store write,
leaves the manager state unchanged, and returns 0 instead of surfacing an
unavailable condition. -/
theorem C7_missing_creds :
    ∀ (env : RedditEnv) (submitRes : String → String → Bool) (bs bd : List String)
      (ms : MState) (limit : Nat) (source : Option String) (m : String),
      _build_reddit_config env = Except.error m → ms.reddit = none →
      (post_unposted_articles env submitRes bs bd ms limit source).2.1 = 0
      ∧ (post_unposted_articles env submitRes bs bd ms limit source).1.store = ms.store
      ∧ ∀ ev ∈ (post_unposted_articles env submitRes bs bd ms limit source).2.2,
          ev = PubEvent.initFail := by
  intro env submitRes bs bd ms limit source m hcfg hms
  unfold post_unposted_articles
  by_cases hE : (fetch_unposted_articles bs bd ms.store (some limit) source).isEmpty = true
  · rw [if_pos hE]
    exact ⟨rfl, rfl, fun ev hev => absurd hev (List.not_mem_nil ev)⟩
  · rw [if_neg hE]
    obtain ⟨ha, hb, hc⟩ :=
      post_loop_no_creds env submitRes bs bd m hcfg
        (fetch_unposted_articles bs bd ms.store (some limit) source) ms hms
    exact ⟨hb, by rw [ha], hc⟩

/-- Witness for C7 at a concrete input: with every credential unset and two
unposted entries selected, the batch returns 0, leaves the store as it
was, and records only construction failures. -/
theorem C7_witness :
    (post_unposted_articles envMissing submitOkAll [] [] ⟨storeC7, none⟩ 5 none).2.1 = 0
    ∧ (post_unposted_articles envMissing submitOkAll [] [] ⟨storeC7, none⟩ 5
        none).1.store = storeC7
    ∧ ∀ ev ∈ (post_unposted_articles envMissing submitOkAll [] [] ⟨storeC7, none⟩ 5
        none).2.2, ev = PubEvent.initFail :=
  C7_missing_creds envMissing submitOkAll [] [] ⟨storeC7, none⟩ 5 none _ rfl rfl

/-- C7 counterexample: the claim says a publish run without credentials
fails fast at driver construction and cannot proceed at all; on `storeC7`
(two selected entries) the construction error is indeed raised — but the
operation swallows it per entry, attempts the driver construction twice
(one `initFail` per selected row), and returns 0 normally instead of
aborting. -/
theorem C7_counterexample :
    _build_reddit_config envMissing =
      Except.error
        "Reddit credentials missing: REDDIT_CLIENT_ID, REDDIT_CLIENT_SECRET, REDDIT_USER_AGENT. Set them in your environment or .env."
    ∧ (post_unposted_articles envMissing submitOkAll [] [] ⟨storeC7, none⟩ 5 none).2.2 =
        [PubEvent.initFail, PubEvent.initFail]
    ∧ (post_unposted_articles envMissing submitOkAll [] [] ⟨storeC7, none⟩ 5 none).2.1 = 0 :=
  ⟨rfl, by decide⟩

theorem hashHex_length (s : Hash8) : (hashHex s).length = 64 := by
  show (wordHex s.a ++ wordHex s.b ++ wordHex s.c ++ wordHex s.d ++
    wordHex s.e ++ wordHex s.f ++ wordHex s.g ++ wordHex s.h).length = 64
  simp [wordHex]

theorem uniqueString_data (c : Candidate) :
    (uniqueString c).data = c.url.data ++ (c.headline.data ++ c.published.data) := by
  simp [uniqueString, String.data_append, List.append_assoc]

theorem uniqueString_url_ne {c c' : Candidate} (hh : c.headline = c'.headline)
    (hp : c.published = c'.published) (hu : c.url ≠ c'.url) :
    uniqueString c ≠ uniqueString c' := by
  intro he
  apply hu
  have hd := congrArg String.data he
  rw [uniqueString_data, uniqueString_data, hh, hp] at hd
  exact String.ext (List.append_cancel_right hd)

theorem uniqueString_headline_ne {c c' : Candidate} (hu : c.url = c'.url)
    (hp : c.published = c'.published) (hh : c.headline ≠ c'.headline) :
    uniqueString c ≠ uniqueString c' := by
  intro he
  apply hh
  have hd := congrArg String.data he
  rw [uniqueString_data, uniqueString_data, hu, hp] at hd
  have hd2 := List.append_cancel_left hd
  exact String.ext (List.append_cancel_right hd2)

theorem uniqueString_published_ne {c c' : Candidate} (hu : c.url = c'.url)
    (hh : c.headline = c'.headline) (hp : c.published ≠ c'.published) :
    uniqueString c ≠ uniqueString c' := by
  intro he
  apply hp
  have hd := congrArg String.data he
  rw [uniqueString_data, uniqueString_data, hu, hh] at hd
  have hd2 := List.append_cancel_left hd
  exact String.ext (List.append_cancel_left hd2)

/-- C8 (amended): hashing is deterministic and always yields a 64-character
hex digest; changing any single one of url, headline or published while
the other two stay fixed changes the string fed to SHA-256 (the bare
concatenation), and on the repository test's vector a changed url indeed
changes the digest.  (Digest inequality for all inputs cannot hold — see
the counterexample.) -/
theorem C8_hash_properties :
    (∀ c : Candidate, generate_hash c = generate_hash c ∧ (generate_hash c).length = 64)
    ∧ (∀ c c' : Candidate, c.headline = c'.headline → c.published = c'.published →
        c.url ≠ c'.url → uniqueString c ≠ uniqueString c')
    ∧ (∀ c c' : Candidate, c.url = c'.url → c.published = c'.published →
        c.headline ≠ c'.headline → uniqueString c ≠ uniqueString c')
    ∧ (∀ c c' : Candidate, c.url = c'.url → c.headline = c'.headline →
        c.published ≠ c'.published → uniqueString c ≠ uniqueString c')
    ∧ generate_hash candA ≠ generate_hash candB := by
  refine ⟨fun c => ⟨rfl, hashHex_length _⟩, ?_, ?_, ?_, by decide⟩
  · intro c c' hh hp hu
    exact uniqueString_url_ne hh hp hu
  · intro c c' hu hp hh
    exact uniqueString_headline_ne hu hp hh
  · intro c c' hu hh hp
    exact uniqueString_published_ne hu hh hp

/-- Witness for C8 at a concrete input: the repository test's two triples
differ only in the url, and their SHA-256 input strings differ. -/
theorem C8_witness : uniqueString candA ≠ uniqueString candB :=
  C8_hash_properties.2.1 candA candB rfl rfl (by decide)

theorem compress_bounded (s : Hash8) (b : List Nat) : BoundedH (compress s b) := by
  refine ⟨?_, ?_, ?_, ?_, ?_, ?_, ?_, ?_⟩ <;> exact Nat.mod_lt _ (by decide)

theorem foldl_compress_bounded :
    ∀ (blocks : List (List Nat)) (s : Hash8), BoundedH s →
      BoundedH (blocks.foldl compress s) := by
  intro blocks
  induction blocks with
  | nil => intro s hs; exact hs
  | cons b blocks ih =>
    intro s hs
    rw [List.foldl_cons]
    exact ih _ (compress_bounded s b)

theorem sha256_bounded (msg : List Nat) : BoundedH (sha256 msg) :=
  foldl_compress_bounded _ IV256 (by unfold BoundedH; decide)

theorem urlProbe_url_ne {n m : Nat} (h : n ≠ m) : (urlProbe n).url ≠ (urlProbe m).url := by
  intro he
  apply h
  have hd := congrArg (fun s : String => s.data.length) he
  simpa [urlProbe] using hd

/-- C8 counterexample: the claim that changing one field always changes
the digest is refuted by cardinality: SHA-256 states are bounded
componentwise by 2^32, so the digests of the infinitely many candidates
`urlProbe n` (which differ pairwise only in the url) live in a finite
set, and two distinct ones must share a digest. -/
theorem C8_counterexample :
    ¬ ((∀ c : Candidate, generate_hash c = generate_hash c)
        ∧ (∀ c c' : Candidate, c.headline = c'.headline → c.summary = c'.summary →
            c.published = c'.published → c.url ≠ c'.url →
            generate_hash c ≠ generate_hash c')) := by
  rintro ⟨-, hsens⟩
  obtain ⟨n, m, hnm, hF⟩ :=
    Finite.exists_ne_map_eq_of_infinite
      (fun n : Nat =>
        ((⟨(sha256 (utf8Encode (uniqueString (urlProbe n)))).a, (sha256_bounded _).1⟩,
          ⟨(sha256 (utf8Encode (uniqueString (urlProbe n)))).b, (sha256_bounded _).2.1⟩,
          ⟨(sha256 (utf8Encode (uniqueString (urlProbe n)))).c, (sha256_bounded _).2.2.1⟩,
          ⟨(sha256 (utf8Encode (uniqueString (urlProbe n)))).d, (sha256_bounded _).2.2.2.1⟩,
          ⟨(sha256 (utf8Encode (uniqueString (urlProbe n)))).e, (sha256_bounded _).2.2.2.2.1⟩,
          ⟨(sha256 (utf8Encode (uniqueString (urlProbe n)))).f, (sha256_bounded _).2.2.2.2.2.1⟩,
          ⟨(sha256 (utf8Encode (uniqueString (urlProbe n)))).g, (sha256_bounded _).2.2.2.2.2.2.1⟩,
          ⟨(sha256 (utf8Encode (uniqueString (urlProbe n)))).h, (sha256_bounded _).2.2.2.2.2.2.2⟩) :
          Fin M32 × Fin M32 × Fin M32 × Fin M32 × Fin M32 × Fin M32 × Fin M32 × Fin M32))
  simp only [Prod.mk.injEq, Fin.mk.injEq] at hF
  obtain ⟨h1, h2, h3, h4, h5, h6, h7, h8⟩ := hF
  have hstate : sha256 (utf8Encode (uniqueString (urlProbe n))) =
      sha256 (utf8Encode (uniqueString (urlProbe m))) := by
    apply Hash8.ext <;> assumption
  have hdig : generate_hash (urlProbe n) = generate_hash (urlProbe m) :=
    congrArg hashHex hstate
  exact hsens (urlProbe n) (urlProbe m) rfl rfl rfl (urlProbe_url_ne hnm) hdig

/-- C10: the fingerprint hashes the bare concatenation url + headline +
published, so the boundary-shifted pair `("http://x/a", "bT", p)` and
`("http://x/ab", "T", p)` are different candidates with identical
fingerprints, and ingesting both into an empty store keeps only the
first: the second insert is silently dropped and the new-entry count is
1, not 2. -/
theorem C10_concatenation_collision :
    candX ≠ candY
    ∧ generate_hash candX = generate_hash candY
    ∧ scrapeSource "s" (Except.ok [Except.ok candX, Except.ok candY]) emptyStore =
        (⟨[⟨1, generate_hash candX, "s", candX.url, candX.headline, candX.summary,
            candX.published, false⟩], 2⟩, 1) :=
  ⟨by decide, rfl, by decide⟩

end Dashit
